import Mathlib

/-!
Verification of `savings_comparison.py` (Danhand5555/moneysavingdata).

Shallow embedding conventions:
* Python integers are modelled as `ℤ`; Python floor division `//` and modulus `%`
  are `Int.fdiv` and `Int.fmod`.
* Python true division `/` produces floats; every value arising in this program
  is small enough that the float arithmetic is exact, so it is modelled as exact
  rational arithmetic over `ℚ`.
* Python runtime exceptions are modelled with `Except PyError`.
-/

/-- Python runtime errors the embedded code can raise, together with the
`InvalidArgument` label that the specification's error taxonomy names (the
source itself never raises such a validation error). -/
inductive PyError where
  | zeroDivisionError
  | indexError
  | invalidArgument
  deriving DecidableEq

instance {ε α : Type} [DecidableEq ε] [DecidableEq α] : DecidableEq (Except ε α) := fun a b =>
  match a, b with
  | .error x, .error y =>
      if h : x = y then .isTrue (h ▸ rfl)
      else .isFalse fun he => h (Except.error.inj he)
  | .ok x, .ok y =>
      if h : x = y then .isTrue (h ▸ rfl)
      else .isFalse fun he => h (Except.ok.inj he)
  | .error _, .ok _ => .isFalse fun he => Except.noConfusion he
  | .ok _, .error _ => .isFalse fun he => Except.noConfusion he

/-- The cycle-length list built by the loop in `calculate_yearly_savings`
(lines 18-26): `base_length = year_days // num_cycles`,
`remainder = year_days % num_cycles`, one entry per `i in range(num_cycles)`
(empty when `num_cycles` is negative), where the first `remainder` entries get
`base_length + 1` and the rest `base_length`. -/
def cycleLengths (num_cycles year_days : ℤ) : List ℤ :=
  (List.range num_cycles.toNat).map fun (i : ℕ) =>
    if (i : ℤ) < year_days.fmod num_cycles then year_days.fdiv num_cycles + 1
    else year_days.fdiv num_cycles

/-- Per-cycle savings `(lgth * (lgth + 1)) / 2` (line 33); Python's float
division by 2 is exact here and is modelled in `ℚ`. -/
def cycleSum (lgth : ℤ) : ℚ :=
  ((lgth : ℚ) * ((lgth : ℚ) + 1)) / 2

/-- `calculate_yearly_savings(num_cycles, year_days)` (lines 10-36): Python
raises `ZeroDivisionError` at `year_days // 0`; otherwise it returns the pair
`(grand_total, lengths)` where `grand_total` accumulates the per-cycle sums
over `lengths`. -/
def calculate_yearly_savings (num_cycles year_days : ℤ) :
    Except PyError (ℚ × List ℤ) :=
  if num_cycles = 0 then .error .zeroDivisionError
  else
    let lengths := cycleLengths num_cycles year_days
    let grand_total := lengths.foldl (fun acc lgth => acc + cycleSum lgth) 0
    .ok (grand_total, lengths)

/-- Python `max` over a list of integers (line 66); the `[]` case (on which
Python would raise) is never reached on the embedded success paths. -/
def pyMax : List ℤ → ℤ
  | [] => 0
  | x :: xs => xs.foldl max x

/-- Python `min` over a list of integers; `[]` never reached in use. -/
def pyMin : List ℤ → ℤ
  | [] => 0
  | x :: xs => xs.foldl min x

/-- `np.mean` of a list of integers, as an exact rational (line 59). -/
def npMean (l : List ℤ) : ℚ :=
  (l.sum : ℚ) / (l.length : ℚ)

/-- Python `int()` applied to a float: truncation toward zero. -/
def pyInt (q : ℚ) : ℤ :=
  if 0 ≤ q then ⌊q⌋ else ⌈q⌉

/-- One row of the comparison table: the dict appended to `data`
(lines 61-69 and the custom-strategy dicts). -/
structure Record where
  CyclesPerYear : ℤ
  Label : String
  TotalSavings : ℚ
  TotalCouple : ℚ
  MaxDailyAmount : ℚ
  AvgDaysPerCycle : ℚ
  Desc : String
  deriving DecidableEq

/-- The `cycle_labels` dict lookup `cycle_labels.get(c, str(c))`
(lines 41-51 and 63). -/
def cycle_labels (c : ℤ) : String :=
  if c = 1 then "Yearly (1)"
  else if c = 2 then "Semi-Annual (2)"
  else if c = 4 then "Quarterly (4)"
  else if c = 6 then "Bi-Monthly (6)"
  else if c = 12 then "Monthly (12)"
  else if c = 24 then "Semi-Monthly (24)"
  else if c = 26 then "Bi-Weekly (26)"
  else if c = 52 then "Weekly (52)"
  else if c = 365 then "Daily (365)"
  else toString c

/-- One iteration of the `for c in target_cycles` loop (lines 53-69): call the
partitioner, build the description (`lengths[0]` raises `IndexError` on an
empty list, which happens exactly when `c < 0`), and assemble the row dict. -/
def processCycle (year_days c : ℤ) : Except PyError Record := do
  let (total, lengths) ← calculate_yearly_savings c year_days
  match lengths with
  | [] => .error .indexError
  | l0 :: _ =>
    let desc :=
      if lengths.dedup.length > 1 then
        "~" ++ toString (pyInt (npMean lengths)) ++ " days"
      else
        toString l0 ++ " days"
    .ok { CyclesPerYear := c
          Label := cycle_labels c
          TotalSavings := total
          TotalCouple := total * 2
          MaxDailyAmount := (pyMax lengths : ℚ)
          AvgDaysPerCycle := (year_days : ℚ) / (c : ℚ)
          Desc := desc }

/-- `fixed_daily = 183` (line 74). -/
def fixed_daily : ℤ := 183

/-- `week_amounts = [50 * i for i in range(1, 53)]` (line 88). -/
def week_amounts : List ℤ :=
  (List.range 52).map fun (i : ℕ) => 50 * ((i : ℤ) + 1)

/-- `w_total = sum(week_amounts)` (line 89). -/
def w_total : ℤ := week_amounts.sum

/-- `ladder_week_total = sum([50 * i for i in range(1, 8)])` (line 102). -/
def ladder_week_total : ℤ :=
  ((List.range 7).map fun (i : ℕ) => 50 * ((i : ℤ) + 1)).sum

/-- `ladder_year_total = ladder_week_total * 52` (line 103). -/
def ladder_year_total : ℤ := ladder_week_total * 52

/-- `payday_amount = 3000` (line 131). -/
def payday_amount : ℤ := 3000

/-- `payday_total = payday_amount * 24` (line 132). -/
def payday_total : ℤ := payday_amount * 24

/-- `weekday_amt = 300` (line 146). -/
def weekday_amt : ℤ := 300

/-- `weekday_total = (weekday_amt * 5) * 52` (line 147). -/
def weekday_total : ℤ := (weekday_amt * 5) * 52

/-- `agg_ladder_week = sum([100 * i for i in range(1, 8)])` (line 160). -/
def agg_ladder_week : ℤ :=
  ((List.range 7).map fun (i : ℕ) => 100 * ((i : ℤ) + 1)).sum

/-- `agg_ladder_total = agg_ladder_week * 52` (line 161). -/
def agg_ladder_total : ℤ := agg_ladder_week * 52

/-- `coffee_total = 60 * 365` (line 174). -/
def coffee_total : ℤ := 60 * 365

/-- `binge_total = 2000 * 52` (line 188). -/
def binge_total : ℤ := 2000 * 52

/-- `date_match_total = (496 * 7 + 465 * 4 + 406) * 10` (line 206). -/
def date_match_total : ℤ := (496 * 7 + 465 * 4 + 406) * 10

/-- `odd_even_total = (183 * 50) + (182 * 500)` (line 220). -/
def odd_even_total : ℤ := 183 * 50 + 182 * 500

/-- `escalator_total = 750 * 52` (line 234). -/
def escalator_total : ℤ := 750 * 52

/-- The twelve fixed custom-strategy rows appended to `data` after the cycle
loop (lines 74-243), in their insertion order. -/
def customStrategies : List Record :=
  [ { CyclesPerYear := 0
      Label := "Fixed Daily (183฿)"
      TotalSavings := ((fixed_daily * 365 : ℤ) : ℚ)
      TotalCouple := (((fixed_daily * 365) * 2 : ℤ) : ℚ)
      MaxDailyAmount := (fixed_daily : ℚ)
      AvgDaysPerCycle := 0
      Desc := "Pay same amount every day" }
  , { CyclesPerYear := 0
      Label := "52-Week Challenge (x50)"
      TotalSavings := (w_total : ℚ)
      TotalCouple := ((w_total * 2 : ℤ) : ℚ)
      MaxDailyAmount := 2600
      AvgDaysPerCycle := 7
      Desc := "Wk1=50, Wk52=2600" }
  , { CyclesPerYear := 0
      Label := "Weekday Ladder"
      TotalSavings := (ladder_year_total : ℚ)
      TotalCouple := ((ladder_year_total * 2 : ℤ) : ℚ)
      MaxDailyAmount := 350
      AvgDaysPerCycle := 0
      Desc := "Mon=50...Sun=350" }
  , { CyclesPerYear := 0
      Label := "Reverse 52-Week"
      TotalSavings := (w_total : ℚ)
      TotalCouple := ((w_total * 2 : ℤ) : ℚ)
      MaxDailyAmount := 2600
      AvgDaysPerCycle := 7
      Desc := "Start High, End Low" }
  , { CyclesPerYear := 0
      Label := "Payday Sync (1st&16th)"
      TotalSavings := (payday_total : ℚ)
      TotalCouple := ((payday_total * 2 : ℤ) : ℚ)
      MaxDailyAmount := (payday_amount : ℚ)
      AvgDaysPerCycle := 15
      Desc := "3000฿ on Paydays Only" }
  , { CyclesPerYear := 0
      Label := "No-Spend Weekends"
      TotalSavings := (weekday_total : ℚ)
      TotalCouple := ((weekday_total * 2 : ℤ) : ℚ)
      MaxDailyAmount := (weekday_amt : ℚ)
      AvgDaysPerCycle := 0
      Desc := "M-F 300฿, Sat-Sun 0฿" }
  , { CyclesPerYear := 0
      Label := "Aggressive Ladder"
      TotalSavings := (agg_ladder_total : ℚ)
      TotalCouple := ((agg_ladder_total * 2 : ℤ) : ℚ)
      MaxDailyAmount := 700
      AvgDaysPerCycle := 0
      Desc := "Mon=100...Sun=700" }
  , { CyclesPerYear := 0
      Label := "Coffee Skip (60฿)"
      TotalSavings := (coffee_total : ℚ)
      TotalCouple := ((coffee_total * 2 : ℤ) : ℚ)
      MaxDailyAmount := 60
      AvgDaysPerCycle := 0
      Desc := "Skip 1 coffee/day" }
  , { CyclesPerYear := 0
      Label := "Weekend Binge"
      TotalSavings := (binge_total : ℚ)
      TotalCouple := ((binge_total * 2 : ℤ) : ℚ)
      MaxDailyAmount := 1000
      AvgDaysPerCycle := 0
      Desc := "M-F 0฿, Sat/Sun 1k" }
  , { CyclesPerYear := 0
      Label := "Date Match (x10)"
      TotalSavings := (date_match_total : ℚ)
      TotalCouple := ((date_match_total * 2 : ℤ) : ℚ)
      MaxDailyAmount := 310
      AvgDaysPerCycle := 30
      Desc := "Day 1=10฿ ... Day 31=310฿" }
  , { CyclesPerYear := 0
      Label := "Odd/Even Smasher"
      TotalSavings := (odd_even_total : ℚ)
      TotalCouple := ((odd_even_total * 2 : ℤ) : ℚ)
      MaxDailyAmount := 500
      AvgDaysPerCycle := 0
      Desc := "Odd=50฿, Even=500฿" }
  , { CyclesPerYear := 0
      Label := "Workday Escalator"
      TotalSavings := (escalator_total : ℚ)
      TotalCouple := ((escalator_total * 2 : ℤ) : ℚ)
      MaxDailyAmount := 250
      AvgDaysPerCycle := 0
      Desc := "M->F 50,100..250. Wknd 0" }
  ]

/-- The whole `for c in target_cycles` loop: rows for the requested cycle
counts in order, stopping at the first raised exception (fail-fast, as in
Python). -/
def processCycles (year_days : ℤ) : List ℤ → Except PyError (List Record)
  | [] => .ok []
  | c :: cs => do
    let r ← processCycle year_days c
    let rs ← processCycles year_days cs
    .ok (r :: rs)

/-- The `data` list right before the DataFrame is built (lines 39-243):
cycle-based rows in request order followed by the fixed custom rows. -/
def buildData (target_cycles : List ℤ) (year_days : ℤ) :
    Except PyError (List Record) := do
  let cycleRecords ← processCycles year_days target_cycles
  .ok (cycleRecords ++ customStrategies)

/-- The ordering used by `sort_values(by='TotalSavings', ascending=False)`:
row `a` may precede row `b` when `b`'s total does not exceed `a`'s. -/
def byTotalDesc (a b : Record) : Prop :=
  b.TotalSavings ≤ a.TotalSavings

instance : DecidableRel byTotalDesc := fun a b =>
  inferInstanceAs (Decidable (b.TotalSavings ≤ a.TotalSavings))

instance : IsTotal Record byTotalDesc :=
  ⟨fun a b => le_total b.TotalSavings a.TotalSavings⟩

instance : IsTrans Record byTotalDesc :=
  ⟨fun _ _ _ h1 h2 => le_trans h2 h1⟩

/-- `df.sort_values(by='TotalSavings', ascending=False)` (line 247): the rows
reordered so that `TotalSavings` is descending.  pandas' default
`kind='quicksort'` leaves the relative order of tied rows unspecified; the
executable model uses `List.insertionSort`, one realisation of that
descending contract. -/
def sortTable (l : List Record) : List Record :=
  l.insertionSort byTotalDesc

/-- `generate_comparison_data(target_cycles, year_days)` (lines 38-247):
assemble all rows, then sort by `TotalSavings` descending. -/
def generate_comparison_data (target_cycles : List ℤ) (year_days : ℤ) :
    Except PyError (List Record) :=
  (buildData target_cycles year_days).map sortTable

/-- Integer value of one per-cycle sum: `l * (l + 1)` is always even, so the
float division by 2 in the source is exact and lands on this integer. -/
def intCycleSum (l : ℤ) : ℤ := l * (l + 1) / 2

/-- Integer value of a grand total over a list of cycle lengths. -/
def intTotal (L : List ℤ) : ℤ := (L.map intCycleSum).sum

theorem cycleSum_eq_int (l : ℤ) : cycleSum l = ((intCycleSum l : ℤ) : ℚ) := by
  obtain ⟨k, hk⟩ := Int.even_mul_succ_self l
  have h2 : l * (l + 1) = 2 * k := by omega
  have hq : ((l : ℚ) * ((l : ℚ) + 1)) = ((2 * k : ℤ) : ℚ) := by
    push_cast [← h2]
    ring
  unfold cycleSum intCycleSum
  rw [hq, h2, Int.mul_ediv_cancel_left k two_ne_zero]
  push_cast
  ring

theorem foldl_cycleSum (L : List ℤ) (a : ℚ) :
    L.foldl (fun acc l => acc + cycleSum l) a = a + (L.map cycleSum).sum := by
  induction L generalizing a with
  | nil => simp
  | cons x xs ih => simp [ih, add_assoc]

theorem map_cycleSum_sum (L : List ℤ) :
    (L.map cycleSum).sum = ((intTotal L : ℤ) : ℚ) := by
  induction L with
  | nil => simp [intTotal]
  | cons x xs ih =>
      rw [List.map_cons, List.sum_cons, ih, cycleSum_eq_int]
      unfold intTotal
      rw [List.map_cons, List.sum_cons]
      push_cast
      ring

theorem calculate_yearly_savings_eq (c yd : ℤ) (hc : c ≠ 0) :
    calculate_yearly_savings c yd =
      .ok (((intTotal (cycleLengths c yd) : ℤ) : ℚ), cycleLengths c yd) := by
  simp [calculate_yearly_savings, hc, foldl_cycleSum, map_cycleSum_sum]

theorem cycleLengths_length (c yd : ℤ) :
    (cycleLengths c yd).length = c.toNat := by
  simp [cycleLengths]

theorem sum_range_ite (n : ℕ) (b r : ℤ) (hr : 0 ≤ r) :
    (((List.range n).map fun (i : ℕ) => if (i : ℤ) < r then b + 1 else b).sum)
      = (n : ℤ) * b + min r (n : ℤ) := by
  induction n with
  | zero => simp [min_eq_right hr]
  | succ n ih =>
      rw [List.range_succ, List.map_append, List.sum_append, ih]
      simp only [List.map_cons, List.map_nil, List.sum_cons, List.sum_nil]
      push_cast
      rcases lt_or_le (n : ℤ) r with h | h
      · rw [if_pos h, min_eq_right (by omega : (n : ℤ) ≤ r),
          min_eq_right (by omega : (n : ℤ) + 1 ≤ r)]
        ring
      · rw [if_neg (not_lt.mpr h), min_eq_left h, min_eq_left (by omega : r ≤ (n : ℤ) + 1)]
        ring

theorem cycleLengths_sum (c yd : ℤ) (hc : 0 < c) :
    (cycleLengths c yd).sum = yd := by
  have hr0 : 0 ≤ yd.fmod c := Int.fmod_nonneg' yd hc
  have hrc : yd.fmod c < c := Int.fmod_lt_of_pos yd hc
  have hcn : (c.toNat : ℤ) = c := Int.toNat_of_nonneg hc.le
  rw [cycleLengths, sum_range_ite _ _ _ hr0, hcn,
    min_eq_left (by omega : yd.fmod c ≤ c)]
  have h := Int.fmod_add_fdiv yd c
  linarith

theorem cycleLengths_get (c yd : ℤ) (i : ℕ) (h : i < (cycleLengths c yd).length) :
    (cycleLengths c yd).get ⟨i, h⟩ =
      if (i : ℤ) < yd.fmod c then yd.fdiv c + 1 else yd.fdiv c := by
  simp [cycleLengths]

theorem cycleLengths_mem {c yd x : ℤ} (hx : x ∈ cycleLengths c yd) :
    x = yd.fdiv c ∨ x = yd.fdiv c + 1 := by
  simp only [cycleLengths, List.mem_map, List.mem_range] at hx
  obtain ⟨i, _, hix⟩ := hx
  split at hix
  · right
    omega
  · left
    omega

theorem cycleLengths_ne_nil (c yd : ℤ) (hc : 0 < c) :
    cycleLengths c yd ≠ [] := by
  intro h
  have hl := cycleLengths_length c yd
  rw [h] at hl
  simp at hl
  omega

theorem le_foldl_max (l : List ℤ) (a : ℤ) : a ≤ l.foldl max a := by
  induction l generalizing a with
  | nil => exact le_refl a
  | cons x xs ih => exact le_trans (le_max_left a x) (ih (max a x))

theorem mem_le_foldl_max (l : List ℤ) {x : ℤ} (hx : x ∈ l) (a : ℤ) :
    x ≤ l.foldl max a := by
  induction l generalizing a with
  | nil => cases hx
  | cons y ys ih =>
      rcases List.mem_cons.mp hx with h | h
      · subst h
        exact le_trans (le_max_right a x) (le_foldl_max ys (max a x))
      · exact ih h (max a y)

theorem foldl_max_mem (l : List ℤ) (a : ℤ) :
    l.foldl max a = a ∨ l.foldl max a ∈ l := by
  induction l generalizing a with
  | nil => exact Or.inl rfl
  | cons x xs ih =>
      rw [List.foldl_cons]
      rcases ih (max a x) with h | h
      · rcases max_choice a x with h2 | h2
        · exact Or.inl (h.trans h2)
        · exact Or.inr (by rw [h, h2]; exact List.mem_cons_self x xs)
      · exact Or.inr (List.mem_cons_of_mem x h)

theorem foldl_min_le (l : List ℤ) (a : ℤ) : l.foldl min a ≤ a := by
  induction l generalizing a with
  | nil => exact le_refl a
  | cons x xs ih => exact le_trans (ih (min a x)) (min_le_left a x)

theorem foldl_min_le_mem (l : List ℤ) {x : ℤ} (hx : x ∈ l) (a : ℤ) :
    l.foldl min a ≤ x := by
  induction l generalizing a with
  | nil => cases hx
  | cons y ys ih =>
      rcases List.mem_cons.mp hx with h | h
      · subst h
        exact le_trans (foldl_min_le ys (min a x)) (min_le_right a x)
      · exact ih h (min a y)

theorem foldl_min_mem (l : List ℤ) (a : ℤ) :
    l.foldl min a = a ∨ l.foldl min a ∈ l := by
  induction l generalizing a with
  | nil => exact Or.inl rfl
  | cons x xs ih =>
      rw [List.foldl_cons]
      rcases ih (min a x) with h | h
      · rcases min_choice a x with h2 | h2
        · exact Or.inl (h.trans h2)
        · exact Or.inr (by rw [h, h2]; exact List.mem_cons_self x xs)
      · exact Or.inr (List.mem_cons_of_mem x h)

theorem pyMax_mem {l : List ℤ} (h : l ≠ []) : pyMax l ∈ l := by
  match l with
  | x :: xs =>
      rcases foldl_max_mem xs x with h1 | h1
      · rw [pyMax, h1]
        exact List.mem_cons_self x xs
      · exact List.mem_cons_of_mem x h1

theorem le_pyMax {l : List ℤ} {x : ℤ} (hx : x ∈ l) : x ≤ pyMax l := by
  match l with
  | y :: ys =>
      rcases List.mem_cons.mp hx with h | h
      · rw [h]
        exact le_foldl_max ys y
      · exact mem_le_foldl_max ys h y

theorem pyMin_mem {l : List ℤ} (h : l ≠ []) : pyMin l ∈ l := by
  match l with
  | x :: xs =>
      rcases foldl_min_mem xs x with h1 | h1
      · rw [pyMin, h1]
        exact List.mem_cons_self x xs
      · exact List.mem_cons_of_mem x h1

theorem pyMin_le {l : List ℤ} {x : ℤ} (hx : x ∈ l) : pyMin l ≤ x := by
  match l with
  | y :: ys =>
      rcases List.mem_cons.mp hx with h | h
      · rw [h]
        exact foldl_min_le ys y
      · exact foldl_min_le_mem ys h y

theorem cycleLengths_mem_of_zero_fmod {c yd x : ℤ} (hr : yd.fmod c = 0)
    (hx : x ∈ cycleLengths c yd) : x = yd.fdiv c := by
  simp only [cycleLengths, List.mem_map, List.mem_range] at hx
  obtain ⟨i, _, hix⟩ := hx
  rw [hr] at hix
  rw [if_neg (by omega : ¬ (i : ℤ) < 0)] at hix
  omega

theorem head_mem_cycleLengths (c yd : ℤ) (hc : 0 < c) (hr : 0 < yd.fmod c) :
    yd.fdiv c + 1 ∈ cycleLengths c yd := by
  simp only [cycleLengths, List.mem_map, List.mem_range]
  exact ⟨0, by omega, by rw [if_pos (by exact_mod_cast hr)]⟩

theorem base_mem_cycleLengths (c yd : ℤ) (hc : 0 < c) :
    yd.fdiv c ∈ cycleLengths c yd := by
  have hrc : yd.fmod c < c := Int.fmod_lt_of_pos yd hc
  simp only [cycleLengths, List.mem_map, List.mem_range]
  refine ⟨c.toNat - 1, by omega, ?_⟩
  rw [if_neg ?_]
  omega

theorem pyMax_cycleLengths (c yd : ℤ) (hc : 0 < c) :
    pyMax (cycleLengths c yd) = yd.fdiv c + (if 0 < yd.fmod c then 1 else 0) := by
  have hr0 : 0 ≤ yd.fmod c := Int.fmod_nonneg' yd hc
  have hne := cycleLengths_ne_nil c yd hc
  have hmem := pyMax_mem hne
  have hch := cycleLengths_mem hmem
  rcases lt_or_eq_of_le hr0 with hr | hr
  · rw [if_pos hr]
    have hup := le_pyMax (head_mem_cycleLengths c yd hc hr)
    omega
  · rw [if_neg (by omega)]
    have := cycleLengths_mem_of_zero_fmod hr.symm hmem
    omega

theorem pyMin_cycleLengths (c yd : ℤ) (hc : 0 < c) :
    pyMin (cycleLengths c yd) = yd.fdiv c := by
  have hne := cycleLengths_ne_nil c yd hc
  have hch := cycleLengths_mem (pyMin_mem hne)
  have hle := pyMin_le (base_mem_cycleLengths c yd hc)
  omega

set_option maxRecDepth 4000 in
/-- C1: for every `cycle_count ≥ 1` and `year_days ≥ 0` the grand total
returned by `calculate_yearly_savings` equals the sum of `L*(L+1)/2` over its
cycle lengths exactly; concretely, for `year_days = 365` the totals for 1, 2
and 365 cycles are 66795, 33489 and 365. -/
theorem grand_total_eq_triangular_sum (c yd : ℤ) (hc : 1 ≤ c) (hy : 0 ≤ yd) :
    (∃ t L, calculate_yearly_savings c yd = .ok (t, L) ∧ t = (L.map cycleSum).sum)
    ∧ calculate_yearly_savings 1 365 = .ok (66795, [365])
    ∧ calculate_yearly_savings 2 365 = .ok (33489, [183, 182])
    ∧ calculate_yearly_savings 365 365 = .ok (365, List.replicate 365 1) := by
  refine ⟨⟨_, _, calculate_yearly_savings_eq c yd (by omega), (map_cycleSum_sum _).symm⟩,
    ?_, ?_, ?_⟩
  · rw [calculate_yearly_savings_eq 1 365 (by decide),
      (by decide : cycleLengths 1 365 = [365]),
      (by decide : intTotal [365] = 66795)]
    norm_num
  · rw [calculate_yearly_savings_eq 2 365 (by decide),
      (by decide : cycleLengths 2 365 = [183, 182]),
      (by decide : intTotal [183, 182] = 33489)]
    norm_num
  · rw [calculate_yearly_savings_eq 365 365 (by decide),
      (by decide : cycleLengths 365 365 = List.replicate 365 1),
      (by decide : intTotal (List.replicate 365 1) = 365)]
    norm_num

/-- Witness for C1 at `cycle_count = 1`, `year_days = 365`. -/
theorem grand_total_eq_triangular_sum_witness :
    (1 : ℤ) ≤ 1 ∧ (0 : ℤ) ≤ 365 ∧
    ((∃ t L, calculate_yearly_savings 1 365 = .ok (t, L) ∧ t = (L.map cycleSum).sum)
    ∧ calculate_yearly_savings 1 365 = .ok (66795, [365])
    ∧ calculate_yearly_savings 2 365 = .ok (33489, [183, 182])
    ∧ calculate_yearly_savings 365 365 = .ok (365, List.replicate 365 1)) :=
  ⟨by decide, by decide, grand_total_eq_triangular_sum 1 365 (by decide) (by decide)⟩

/-- C2: for every `cycle_count ≥ 1` and `year_days ≥ 0` the lengths list has
exactly `cycle_count` entries, sums to `year_days`, max and min differ by at
most 1, and exactly the first `year_days % cycle_count` entries are
`base_length + 1` while the rest are `base_length = year_days // cycle_count`. -/
theorem cycle_partition_fair (c yd : ℤ) (hc : 1 ≤ c) (hy : 0 ≤ yd) :
    ∃ t L, calculate_yearly_savings c yd = .ok (t, L) ∧
      (L.length : ℤ) = c ∧
      L.sum = yd ∧
      pyMax L - pyMin L ≤ 1 ∧
      ∀ i (h : i < L.length), L.get ⟨i, h⟩ =
        if (i : ℤ) < yd.fmod c then yd.fdiv c + 1 else yd.fdiv c := by
  have hc0 : 0 < c := by omega
  refine ⟨_, _, calculate_yearly_savings_eq c yd (by omega), ?_,
    cycleLengths_sum c yd hc0, ?_, fun i h => cycleLengths_get c yd i h⟩
  · rw [cycleLengths_length]
    omega
  · rw [pyMax_cycleLengths c yd hc0, pyMin_cycleLengths c yd hc0]
    split <;> omega

/-- Witness for C2 at `cycle_count = 2`, `year_days = 365`. -/
theorem cycle_partition_fair_witness :
    (1 : ℤ) ≤ 2 ∧ (0 : ℤ) ≤ 365 ∧
    (∃ t L, calculate_yearly_savings 2 365 = .ok (t, L) ∧
      (L.length : ℤ) = 2 ∧
      L.sum = 365 ∧
      pyMax L - pyMin L ≤ 1 ∧
      ∀ i (h : i < L.length), L.get ⟨i, h⟩ =
        if (i : ℤ) < (365 : ℤ).fmod 2 then (365 : ℤ).fdiv 2 + 1 else (365 : ℤ).fdiv 2) :=
  ⟨by decide, by decide, cycle_partition_fair 2 365 (by decide) (by decide)⟩

/-- C8: holding `year_days` fixed, the maximum cycle length (the record's
`MaxDailyAmount`) is non-increasing in the cycle count. -/
theorem pyMax_cycleLengths_antitone (yd c1 c2 : ℤ) (hy : 0 ≤ yd) (h1 : 1 ≤ c1)
    (h12 : c1 ≤ c2) :
    pyMax (cycleLengths c2 yd) ≤ pyMax (cycleLengths c1 yd) := by
  have h2 : 0 < c2 := by omega
  have h1p : 0 < c1 := by omega
  rw [pyMax_cycleLengths c1 yd h1p, pyMax_cycleLengths c2 yd h2]
  set b1 := yd.fdiv c1 with hb1def
  set r1 := yd.fmod c1 with hr1def
  set b2 := yd.fdiv c2 with hb2def
  set r2 := yd.fmod c2 with hr2def
  have e1 : r1 + c1 * b1 = yd := Int.fmod_add_fdiv yd c1
  have e2 : r2 + c2 * b2 = yd := Int.fmod_add_fdiv yd c2
  have hr1 : 0 ≤ r1 := Int.fmod_nonneg' yd h1p
  have hr1c : r1 < c1 := Int.fmod_lt_of_pos yd h1p
  have hr2 : 0 ≤ r2 := Int.fmod_nonneg' yd h2
  have hb1 : 0 ≤ b1 := Int.fdiv_nonneg hy h1p.le
  set m1 := b1 + (if 0 < r1 then 1 else 0) with hm1
  set m2 := b2 + (if 0 < r2 then 1 else 0) with hm2
  have hydm1 : yd ≤ c1 * m1 := by
    by_cases hp : 0 < r1
    · rw [hm1, if_pos hp]
      have hx : c1 * (b1 + 1) = c1 * b1 + c1 := by ring
      rw [hx]
      linarith
    · rw [hm1, if_neg hp]
      linarith
  have hm2lt : c2 * (m2 - 1) < yd := by
    by_cases hp : 0 < r2
    · rw [hm2, if_pos hp]
      have hx : c2 * (b2 + 1 - 1) = c2 * b2 := by ring
      rw [hx]
      linarith
    · rw [hm2, if_neg hp]
      have hx : c2 * (b2 + 0 - 1) = c2 * b2 - c2 := by ring
      rw [hx]
      linarith
  have hm1nn : 0 ≤ m1 := by
    rw [hm1]
    split <;> omega
  have hstep : c1 * m1 ≤ c2 * m1 := mul_le_mul_of_nonneg_right h12 hm1nn
  have hchain : c2 * (m2 - 1) < c2 * m1 := lt_of_lt_of_le hm2lt (le_trans hydm1 hstep)
  have hlt : m2 - 1 < m1 := lt_of_mul_lt_mul_left hchain h2.le
  omega

/-- Witness for C8 at `year_days = 365`, `c1 = 2`, `c2 = 5`. -/
theorem pyMax_cycleLengths_antitone_witness :
    (0 : ℤ) ≤ 365 ∧ (1 : ℤ) ≤ 2 ∧ (2 : ℤ) ≤ 5 ∧
    pyMax (cycleLengths 5 365) ≤ pyMax (cycleLengths 2 365) :=
  ⟨by decide, by decide, by decide,
    pyMax_cycleLengths_antitone 365 2 5 (by decide) (by decide) (by decide)⟩

theorem cycleSum_zero : cycleSum 0 = 0 := by
  unfold cycleSum
  norm_num

theorem sum_map_cycleSum_filter (L : List ℤ) :
    ((L.filter fun l => l != 0).map cycleSum).sum = (L.map cycleSum).sum := by
  induction L with
  | nil => simp
  | cons x xs ih =>
      by_cases hx : x = 0
      · subst hx
        simpa [List.filter_cons, cycleSum_zero] using ih
      · simp [List.filter_cons, hx, ih]

/-- C9: for `cycle_count > year_days ≥ 0` the valuation succeeds without any
error; the lengths contain zero-length cycles, each zero length contributes 0
to the grand total, and the total equals the sum over the nonzero lengths
alone. -/
theorem degenerate_cycles_ok (c yd : ℤ) (hc : 1 ≤ c) (hy : 0 ≤ yd) (hlt : yd < c) :
    ∃ t L, calculate_yearly_savings c yd = .ok (t, L) ∧
      (0 : ℤ) ∈ L ∧
      (∀ l ∈ L, l = 0 → cycleSum l = 0) ∧
      t = ((L.filter fun l => l != 0).map cycleSum).sum := by
  refine ⟨_, _, calculate_yearly_savings_eq c yd (by omega), ?_, ?_, ?_⟩
  · simp only [cycleLengths, List.mem_map, List.mem_range]
    refine ⟨yd.toNat, by omega, ?_⟩
    have hb : yd.fdiv c = 0 := by
      rw [Int.fdiv_eq_ediv yd (by omega : (0:ℤ) ≤ c)]
      exact Int.ediv_eq_zero_of_lt hy hlt
    have hr : yd.fmod c = yd := by
      rw [Int.fmod_eq_emod yd (by omega : (0:ℤ) ≤ c)]
      exact Int.emod_eq_of_lt hy hlt
    rw [hb, hr, if_neg (by omega)]
  · intro l _ h0
    rw [h0]
    exact cycleSum_zero
  · rw [sum_map_cycleSum_filter, map_cycleSum_sum]

/-- Witness for C9 at `cycle_count = 5`, `year_days = 3`. -/
theorem degenerate_cycles_ok_witness :
    (1 : ℤ) ≤ 5 ∧ (0 : ℤ) ≤ 3 ∧ (3 : ℤ) < 5 ∧
    (∃ t L, calculate_yearly_savings 5 3 = .ok (t, L) ∧
      (0 : ℤ) ∈ L ∧
      (∀ l ∈ L, l = 0 → cycleSum l = 0) ∧
      t = ((L.filter fun l => l != 0).map cycleSum).sum) :=
  ⟨by decide, by decide, by decide,
    degenerate_cycles_ok 5 3 (by decide) (by decide) (by decide)⟩

theorem cycleSum_nonneg (l : ℤ) : 0 ≤ cycleSum l := by
  have key : 0 ≤ l * (l + 1) := by nlinarith [sq_nonneg (2 * l + 1)]
  have hq : (0 : ℚ) ≤ (l : ℚ) * ((l : ℚ) + 1) := by exact_mod_cast key
  unfold cycleSum
  exact div_nonneg hq (by norm_num)

theorem cycleSum_superadd (a s : ℤ) (ha : 0 ≤ a) (hs : 0 ≤ s) :
    cycleSum a + cycleSum s ≤ cycleSum (a + s) := by
  have haq : (0 : ℚ) ≤ (a : ℚ) := by exact_mod_cast ha
  have hsq : (0 : ℚ) ≤ (s : ℚ) := by exact_mod_cast hs
  unfold cycleSum
  rw [div_add_div_same]
  gcongr
  push_cast
  nlinarith [mul_nonneg haq hsq]

theorem sum_cycleSum_le (L : List ℤ) (hL : ∀ l ∈ L, 0 ≤ l) :
    (L.map cycleSum).sum ≤ cycleSum L.sum := by
  induction L with
  | nil =>
      simp [cycleSum_zero]
  | cons x xs ih =>
      have hx : 0 ≤ x := hL x (List.mem_cons_self x xs)
      have hxs : ∀ l ∈ xs, 0 ≤ l := fun l hl => hL l (List.mem_cons_of_mem x hl)
      have hsum : 0 ≤ xs.sum := List.sum_nonneg hxs
      calc ((x :: xs).map cycleSum).sum = cycleSum x + (xs.map cycleSum).sum := by simp
        _ ≤ cycleSum x + cycleSum xs.sum := by linarith [ih hxs]
        _ ≤ cycleSum (x + xs.sum) := cycleSum_superadd x xs.sum hx hsum
        _ = cycleSum (x :: xs).sum := by rw [List.sum_cons]

theorem exceptBind_ok {ε α β : Type} (a : α) (f : α → Except ε β) :
    (Except.ok a >>= f) = f a := rfl

theorem exceptBind_error {ε α β : Type} (e : ε) (f : α → Except ε β) :
    ((Except.error e : Except ε α) >>= f) = .error e := rfl

theorem exceptMap_ok {ε α β : Type} (f : α → β) (a : α) :
    (Except.ok a : Except ε α).map f = .ok (f a) := rfl

theorem exceptMap_error {ε α β : Type} (f : α → β) (e : ε) :
    (Except.error e : Except ε α).map f = .error e := rfl

/-- Reduction of one loop iteration once the partitioner's output is known and
its lengths list is nonempty. -/
theorem processCycle_reduce (yd c : ℤ) (t : ℚ) (l0 : ℤ) (ls : List ℤ)
    (h : calculate_yearly_savings c yd = .ok (t, l0 :: ls)) :
    processCycle yd c = .ok
      { CyclesPerYear := c
        Label := cycle_labels c
        TotalSavings := t
        TotalCouple := t * 2
        MaxDailyAmount := ((pyMax (l0 :: ls) : ℤ) : ℚ)
        AvgDaysPerCycle := (yd : ℚ) / (c : ℚ)
        Desc := if (l0 :: ls).dedup.length > 1 then
            "~" ++ toString (pyInt (npMean (l0 :: ls))) ++ " days"
          else toString l0 ++ " days" } := by
  unfold processCycle
  rw [h, exceptBind_ok]

theorem processCycle_zero (yd : ℤ) :
    processCycle yd 0 = .error .zeroDivisionError := rfl

theorem processCycle_neg (yd c : ℤ) (hneg : c < 0) :
    processCycle yd c = .error .indexError := by
  have hL : cycleLengths c yd = [] := by
    unfold cycleLengths
    have h0 : c.toNat = 0 := by omega
    rw [h0]
    rfl
  have h := calculate_yearly_savings_eq c yd (by omega)
  rw [hL] at h
  unfold processCycle
  rw [h, exceptBind_ok]

/-- Inversion: a successful loop iteration forces a positive cycle count and
fully determines the produced row. -/
theorem processCycle_inv {yd c : ℤ} {r : Record} (h : processCycle yd c = .ok r) :
    0 < c ∧ ∃ l0 ls, cycleLengths c yd = l0 :: ls ∧
      r = { CyclesPerYear := c
            Label := cycle_labels c
            TotalSavings := ((intTotal (l0 :: ls) : ℤ) : ℚ)
            TotalCouple := ((intTotal (l0 :: ls) : ℤ) : ℚ) * 2
            MaxDailyAmount := ((pyMax (l0 :: ls) : ℤ) : ℚ)
            AvgDaysPerCycle := (yd : ℚ) / (c : ℚ)
            Desc := if (l0 :: ls).dedup.length > 1 then
                "~" ++ toString (pyInt (npMean (l0 :: ls))) ++ " days"
              else toString l0 ++ " days" } := by
  rcases lt_trichotomy c 0 with hneg | hzero | hpos
  · rw [processCycle_neg yd c hneg] at h
    exact absurd h (by intro he; exact Except.noConfusion he)
  · subst hzero
    rw [processCycle_zero yd] at h
    exact absurd h (by intro he; exact Except.noConfusion he)
  · refine ⟨hpos, ?_⟩
    obtain ⟨l0, ls, hL⟩ : ∃ l0 ls, cycleLengths c yd = l0 :: ls := by
      cases hcase : cycleLengths c yd with
      | nil => exact absurd hcase (cycleLengths_ne_nil c yd hpos)
      | cons a as => exact ⟨a, as, rfl⟩
    refine ⟨l0, ls, hL, ?_⟩
    have hcal := calculate_yearly_savings_eq c yd (by omega)
    rw [hL] at hcal
    rw [processCycle_reduce yd c _ l0 ls hcal] at h
    exact (Except.ok.inj h).symm

theorem processCycle_exists_ok (yd c : ℤ) (hc : 0 < c) :
    ∃ r, processCycle yd c = .ok r := by
  obtain ⟨l0, ls, hL⟩ : ∃ l0 ls, cycleLengths c yd = l0 :: ls := by
    cases hcase : cycleLengths c yd with
    | nil => exact absurd hcase (cycleLengths_ne_nil c yd hc)
    | cons a as => exact ⟨a, as, rfl⟩
  have hcal := calculate_yearly_savings_eq c yd (by omega)
  rw [hL] at hcal
  exact ⟨_, processCycle_reduce yd c _ l0 ls hcal⟩

theorem processCycles_all_ok (yd : ℤ) (cs : List ℤ) (h : ∀ c ∈ cs, 0 < c) :
    ∃ rs, processCycles yd cs = .ok rs := by
  induction cs with
  | nil => exact ⟨[], rfl⟩
  | cons c cs ih =>
      obtain ⟨r, hr⟩ := processCycle_exists_ok yd c (h c (List.mem_cons_self c cs))
      obtain ⟨rs, hrs⟩ := ih fun x hx => h x (List.mem_cons_of_mem c hx)
      refine ⟨r :: rs, ?_⟩
      show (processCycle yd c >>= fun a =>
        processCycles yd cs >>= fun as => Except.ok (a :: as)) = Except.ok (r :: rs)
      rw [hr, exceptBind_ok, hrs, exceptBind_ok]

theorem processCycles_mem {yd : ℤ} {cs : List ℤ} {out : List Record}
    (h : processCycles yd cs = .ok out) :
    ∀ r ∈ out, ∃ c ∈ cs, processCycle yd c = .ok r := by
  induction cs generalizing out with
  | nil =>
      have : out = [] := (Except.ok.inj h).symm
      subst this
      intro r hr
      cases hr
  | cons c cs ih =>
      have hshape : processCycles yd (c :: cs) = (processCycle yd c >>= fun a =>
        processCycles yd cs >>= fun as => Except.ok (a :: as)) := rfl
      rw [hshape] at h
      cases hc : processCycle yd c with
      | error e =>
          rw [hc, exceptBind_error] at h
          exact absurd h (by intro he; exact Except.noConfusion he)
      | ok r0 =>
          rw [hc, exceptBind_ok] at h
          cases hcs : processCycles yd cs with
          | error e =>
              rw [hcs, exceptBind_error] at h
              exact absurd h (by intro he; exact Except.noConfusion he)
          | ok rs =>
              rw [hcs, exceptBind_ok] at h
              have : r0 :: rs = out := Except.ok.inj h
              subst this
              intro r hr
              rcases List.mem_cons.mp hr with heq | htl
              · exact ⟨c, List.mem_cons_self c cs, heq ▸ hc⟩
              · obtain ⟨c', hc', hok⟩ := ih hcs r htl
                exact ⟨c', List.mem_cons_of_mem c hc', hok⟩

theorem processCycles_error_of_bad (yd : ℤ) (cs : List ℤ)
    (hbad : ∃ c ∈ cs, c ≤ 0) :
    ∃ e, processCycles yd cs = .error e := by
  induction cs with
  | nil =>
      obtain ⟨c, hc, _⟩ := hbad
      cases hc
  | cons c cs ih =>
      have hshape : processCycles yd (c :: cs) = (processCycle yd c >>= fun a =>
        processCycles yd cs >>= fun as => Except.ok (a :: as)) := rfl
      by_cases hc0 : c ≤ 0
      · rcases lt_or_eq_of_le hc0 with hneg | hzero
        · exact ⟨.indexError, by rw [hshape, processCycle_neg yd c hneg, exceptBind_error]⟩
        · subst hzero
          exact ⟨.zeroDivisionError, by rw [hshape, processCycle_zero yd, exceptBind_error]⟩
      · obtain ⟨cbad, hcbad, hbad0⟩ := hbad
        have hcbad' : cbad ∈ cs := by
          rcases List.mem_cons.mp hcbad with heq | htl
          · exact absurd (heq ▸ hbad0) hc0
          · exact htl
        obtain ⟨e, he⟩ := ih ⟨cbad, hcbad', hbad0⟩
        obtain ⟨r, hr⟩ := processCycle_exists_ok yd c (by omega)
        exact ⟨e, by rw [hshape, hr, exceptBind_ok, he, exceptBind_error]⟩

theorem buildData_eq {yd : ℤ} {cs : List ℤ} {rs : List Record}
    (h : processCycles yd cs = .ok rs) :
    buildData cs yd = .ok (rs ++ customStrategies) := by
  unfold buildData
  rw [h]
  rfl

theorem buildData_error {yd : ℤ} {cs : List ℤ} {e : PyError}
    (h : processCycles yd cs = .error e) :
    buildData cs yd = .error e := by
  unfold buildData
  rw [h]
  rfl

theorem generate_eq {cs : List ℤ} {yd : ℤ} {rs : List Record}
    (h : processCycles yd cs = .ok rs) :
    generate_comparison_data cs yd = .ok (sortTable (rs ++ customStrategies)) := by
  unfold generate_comparison_data
  rw [buildData_eq h, exceptMap_ok]

/-- Any row of a successfully produced table is either a cycle row for one of
the requested counts or one of the fixed custom rows. -/
theorem generate_mem {cs : List ℤ} {yd : ℤ} {out : List Record}
    (h : generate_comparison_data cs yd = .ok out) :
    ∀ r ∈ out, (∃ c ∈ cs, processCycle yd c = .ok r) ∨ r ∈ customStrategies := by
  unfold generate_comparison_data at h
  cases hp : processCycles yd cs with
  | error e =>
      rw [buildData_error hp, exceptMap_error] at h
      exact absurd h (by intro he; exact Except.noConfusion he)
  | ok rs =>
      rw [buildData_eq hp, exceptMap_ok] at h
      have hout : sortTable (rs ++ customStrategies) = out := Except.ok.inj h
      intro r hr
      rw [← hout] at hr
      have hperm := List.perm_insertionSort byTotalDesc (rs ++ customStrategies)
      have hmem : r ∈ rs ++ customStrategies := hperm.mem_iff.mp hr
      rcases List.mem_append.mp hmem with hl | hrr
      · exact Or.inl (processCycles_mem hp r hl)
      · exact Or.inr hrr

/-- C4 counterexample: the raised errors are Python's `ZeroDivisionError`
(`cycle_count = 0`) and `IndexError` (`cycle_count < 0`) — not a dedicated
`InvalidArgument` validation error — and for a negative count the partitioner
itself returns normally, so nothing is raised "immediately on the invalid
input": the failure only happens later, at `lengths[0]`. -/
theorem invalid_cycle_counterexample :
    generate_comparison_data [0] 365 = .error .zeroDivisionError ∧
    PyError.zeroDivisionError ≠ PyError.invalidArgument ∧
    calculate_yearly_savings (-1) 365 = .ok (0, []) ∧
    generate_comparison_data [-1] 365 = .error .indexError ∧
    PyError.indexError ≠ PyError.invalidArgument :=
  ⟨rfl, by decide, rfl, rfl, by decide⟩

/-- C4 amended: a nonpositive cycle count makes the pipeline fail without
producing any record — with `ZeroDivisionError` when the count is 0 (raised at
the floor division) and `IndexError` when it is negative (raised at
`lengths[0]` on the empty lengths list, the partitioner itself having returned
normally); `generate_comparison_data` then yields an error, not a table. -/
theorem invalid_cycle_raises (cs : List ℤ) (yd c : ℤ) (hc : c ≤ 0) (hmem : c ∈ cs) :
    processCycle yd c = .error (if c = 0 then .zeroDivisionError else .indexError) ∧
    ∃ e, generate_comparison_data cs yd = .error e := by
  constructor
  · by_cases h0 : c = 0
    · subst h0
      rw [if_pos rfl]
      exact processCycle_zero yd
    · rw [if_neg h0]
      exact processCycle_neg yd c (by omega)
  · obtain ⟨e, he⟩ := processCycles_error_of_bad yd cs ⟨c, hmem, hc⟩
    refine ⟨e, ?_⟩
    unfold generate_comparison_data
    rw [buildData_error he, exceptMap_error]

/-- Witness for the amended C4 at `target_cycles = [0]`, `year_days = 365`. -/
theorem invalid_cycle_raises_witness :
    (0 : ℤ) ≤ 0 ∧ (0 : ℤ) ∈ [(0 : ℤ)] ∧
    (processCycle 365 0 = .error (if (0 : ℤ) = 0 then .zeroDivisionError else .indexError) ∧
    ∃ e, generate_comparison_data [0] 365 = .error e) :=
  ⟨by decide, by decide, invalid_cycle_raises [0] 365 0 (by decide) (by decide)⟩

theorem fixed_daily_val : fixed_daily = 183 := rfl

theorem fixed_daily_total_eq : fixed_daily * 365 = 66795 := by decide

theorem w_total_eq : w_total = 68900 := by decide

theorem ladder_year_total_eq : ladder_year_total = 72800 := by decide

theorem payday_amount_val : payday_amount = 3000 := rfl

theorem payday_total_eq : payday_total = 72000 := by decide

theorem weekday_amt_val : weekday_amt = 300 := rfl

theorem weekday_total_eq : weekday_total = 78000 := by decide

theorem agg_ladder_total_eq : agg_ladder_total = 145600 := by decide

theorem coffee_total_eq : coffee_total = 21900 := by decide

theorem binge_total_eq : binge_total = 104000 := by decide

theorem date_match_total_eq : date_match_total = 57380 := by decide

theorem odd_even_total_eq : odd_even_total = 100150 := by decide

theorem escalator_total_eq : escalator_total = 39000 := by decide

/-- C5: the fixed custom strategies carry exactly the stated totals — the
fixed-daily strategy 183·365 = 66795, the 52-Week Challenge 68900 and the
Weekday Ladder 72800. -/
theorem custom_strategy_totals :
    (customStrategies.map fun r => (r.Label, r.TotalSavings)).take 3
      = [("Fixed Daily (183฿)", (66795 : ℚ)),
         ("52-Week Challenge (x50)", (68900 : ℚ)),
         ("Weekday Ladder", (72800 : ℚ))] := by
  rw [show (customStrategies.map fun r => (r.Label, r.TotalSavings)).take 3
      = [("Fixed Daily (183฿)", ((fixed_daily * 365 : ℤ) : ℚ)),
         ("52-Week Challenge (x50)", ((w_total : ℤ) : ℚ)),
         ("Weekday Ladder", ((ladder_year_total : ℤ) : ℚ))] from rfl,
    fixed_daily_total_eq, w_total_eq, ladder_year_total_eq]
  norm_num

theorem processCycle_couple {yd c : ℤ} {r : Record} (h : processCycle yd c = .ok r) :
    r.TotalCouple = 2 * r.TotalSavings := by
  obtain ⟨-, l0, ls, -, hrec⟩ := processCycle_inv h
  subst hrec
  exact mul_comm _ _

theorem custom_couple : ∀ r ∈ customStrategies, r.TotalCouple = 2 * r.TotalSavings := by
  intro r hr
  simp only [customStrategies, List.mem_cons, List.not_mem_nil, or_false] at hr
  rcases hr with rfl | rfl | rfl | rfl | rfl | rfl | rfl | rfl | rfl | rfl | rfl | rfl <;>
    (dsimp only; push_cast; ring)

/-- C6: every row of any table produced by `generate_comparison_data`
satisfies `TotalCouple = 2 * TotalSavings`. -/
theorem total_couple_double (cs : List ℤ) (yd : ℤ) (out : List Record)
    (h : generate_comparison_data cs yd = .ok out) :
    ∀ r ∈ out, r.TotalCouple = 2 * r.TotalSavings := by
  intro r hr
  rcases generate_mem h r hr with ⟨c, -, hok⟩ | hcust
  · exact processCycle_couple hok
  · exact custom_couple r hcust

/-- Witness for C6 on the table for no cycle counts and `year_days = 365`. -/
theorem total_couple_double_witness :
    generate_comparison_data [] 365 = .ok (sortTable ([] ++ customStrategies)) ∧
    ∀ r ∈ sortTable ([] ++ customStrategies), r.TotalCouple = 2 * r.TotalSavings :=
  ⟨rfl, total_couple_double [] 365 (sortTable ([] ++ customStrategies)) rfl⟩

theorem le_cycleSum (l : ℤ) (h : 0 ≤ l) : (l : ℚ) ≤ cycleSum l := by
  rcases (by omega : l = 0 ∨ 1 ≤ l) with h1 | h1
  · subst h1
    rw [cycleSum_zero]
    simp
  · have hq : (1 : ℚ) ≤ (l : ℚ) := by exact_mod_cast h1
    unfold cycleSum
    rw [le_div_iff₀ (by norm_num : (0 : ℚ) < 2)]
    nlinarith [mul_nonneg (sub_nonneg.mpr hq) (by linarith : (0 : ℚ) ≤ (l : ℚ))]

theorem cycleLengths_nonneg {c yd : ℤ} (hy : 0 ≤ yd) (hc : 0 < c) :
    ∀ l ∈ cycleLengths c yd, 0 ≤ l := by
  intro l hl
  have hmem := cycleLengths_mem hl
  have hb := Int.fdiv_nonneg hy hc.le
  omega

theorem custom_invariants : ∀ r ∈ customStrategies,
    0 ≤ r.TotalSavings ∧ 0 ≤ r.MaxDailyAmount ∧ r.MaxDailyAmount ≤ r.TotalSavings := by
  intro r hr
  simp only [customStrategies, List.mem_cons, List.not_mem_nil, or_false] at hr
  rcases hr with rfl | rfl | rfl | rfl | rfl | rfl | rfl | rfl | rfl | rfl | rfl | rfl <;>
    (dsimp only; refine ⟨?_, ?_, ?_⟩ <;>
      norm_num [fixed_daily_val, fixed_daily_total_eq, w_total_eq, ladder_year_total_eq,
        payday_amount_val, payday_total_eq, weekday_amt_val, weekday_total_eq,
        agg_ladder_total_eq, coffee_total_eq, binge_total_eq, date_match_total_eq,
        odd_even_total_eq, escalator_total_eq])

theorem processCycle_invariants {yd c : ℤ} {r : Record} (hy : 0 ≤ yd)
    (h : processCycle yd c = .ok r) :
    0 ≤ r.TotalSavings ∧ 0 ≤ r.MaxDailyAmount ∧ r.MaxDailyAmount ≤ r.TotalSavings := by
  obtain ⟨hc, l0, ls, hL, hrec⟩ := processCycle_inv h
  subst hrec
  dsimp only
  have hLnn : ∀ l ∈ (l0 :: ls), 0 ≤ l := hL ▸ cycleLengths_nonneg hy hc
  have hsum_eq : ((intTotal (l0 :: ls) : ℤ) : ℚ) = ((l0 :: ls).map cycleSum).sum :=
    (map_cycleSum_sum _).symm
  have hmemM : pyMax (l0 :: ls) ∈ (l0 :: ls) := pyMax_mem (by simp)
  have hMnn : 0 ≤ pyMax (l0 :: ls) := hLnn _ hmemM
  refine ⟨?_, ?_, ?_⟩
  · rw [hsum_eq]
    refine List.sum_nonneg fun x hx => ?_
    obtain ⟨l, -, rfl⟩ := List.mem_map.mp hx
    exact cycleSum_nonneg l
  · exact_mod_cast hMnn
  · have h1 : ((pyMax (l0 :: ls) : ℤ) : ℚ) ≤ cycleSum (pyMax (l0 :: ls)) :=
      le_cycleSum _ hMnn
    have h2 : cycleSum (pyMax (l0 :: ls)) ≤ ((l0 :: ls).map cycleSum).sum := by
      refine List.single_le_sum (fun x hx => ?_) _ (List.mem_map_of_mem cycleSum hmemM)
      obtain ⟨l, -, rfl⟩ := List.mem_map.mp hx
      exact cycleSum_nonneg l
    rw [hsum_eq]
    exact le_trans h1 h2

/-- C7: every row of any table produced by `generate_comparison_data` (for a
nonnegative year length) has a nonnegative total, a nonnegative peak payment,
and a peak payment not exceeding the total. -/
theorem record_invariants (cs : List ℤ) (yd : ℤ) (out : List Record) (hy : 0 ≤ yd)
    (h : generate_comparison_data cs yd = .ok out) :
    ∀ r ∈ out, 0 ≤ r.TotalSavings ∧ 0 ≤ r.MaxDailyAmount ∧
      r.MaxDailyAmount ≤ r.TotalSavings := by
  intro r hr
  rcases generate_mem h r hr with ⟨c, -, hok⟩ | hcust
  · exact processCycle_invariants hy hok
  · exact custom_invariants r hcust

/-- Witness for C7 on the table for no cycle counts and `year_days = 365`. -/
theorem record_invariants_witness :
    (0 : ℤ) ≤ 365 ∧ ∀ r ∈ sortTable ([] ++ customStrategies),
      0 ≤ r.TotalSavings ∧ 0 ≤ r.MaxDailyAmount ∧ r.MaxDailyAmount ≤ r.TotalSavings :=
  ⟨by decide, record_invariants [] 365 (sortTable ([] ++ customStrategies)) (by decide) rfl⟩

theorem cycle_total_le (c yd : ℤ) (hc : 0 < c) (hy : 0 ≤ yd) :
    ((intTotal (cycleLengths c yd) : ℤ) : ℚ) ≤ cycleSum yd := by
  rw [← map_cycleSum_sum]
  have h := sum_cycleSum_le (cycleLengths c yd) (cycleLengths_nonneg hy hc)
  rwa [cycleLengths_sum c yd hc] at h

theorem cycleSum_365 : cycleSum 365 = ((66795 : ℤ) : ℚ) := by
  unfold cycleSum
  norm_num

/-- Any successful cycle row for a 365-day year has total at most 66795. -/
theorem processCycle_total_le {c : ℤ} {rec : Record}
    (hok : processCycle 365 c = .ok rec) :
    rec.TotalSavings ≤ ((66795 : ℤ) : ℚ) := by
  obtain ⟨hc, l0, ls, hL, hrec⟩ := processCycle_inv hok
  subst hrec
  dsimp only
  rw [← hL]
  exact le_trans (cycle_total_le c 365 hc (by norm_num)) (le_of_eq cycleSum_365)

/-- Every custom row other than the Aggressive Ladder has total at most
104000. -/
theorem custom_total_le : ∀ a ∈ customStrategies, a.Label ≠ "Aggressive Ladder" →
    a.TotalSavings ≤ ((104000 : ℤ) : ℚ) := by
  intro a ha
  simp only [customStrategies, List.mem_cons, List.not_mem_nil, or_false] at ha
  rcases ha with rfl | rfl | rfl | rfl | rfl | rfl | rfl | rfl | rfl | rfl | rfl | rfl <;>
    (intro hne; first
      | exact absurd rfl hne
      | exact Int.cast_le.mpr (by decide))

set_option maxRecDepth 2000 in
/-- C10: for `year_days = 365` and any (possibly empty) request list of cycle
counts `≥ 1`, the first row of the ranked table is the Aggressive Ladder with
total 145600; moreover every cycle-based total is at most 66795 and every
other custom total is at most 104000, so the top row does not depend on the
requested cycle counts. -/
theorem aggressive_ladder_tops (cs : List ℤ) (hcs : ∀ c ∈ cs, 1 ≤ c) :
    (∃ out, generate_comparison_data cs 365 = .ok out ∧
      ∃ r rest, out = r :: rest ∧ r.Label = "Aggressive Ladder" ∧
        r.TotalSavings = ((145600 : ℤ) : ℚ)) ∧
    (∀ c ∈ cs, ∀ rec, processCycle 365 c = .ok rec →
      rec.TotalSavings ≤ ((66795 : ℤ) : ℚ)) ∧
    (∀ a ∈ customStrategies, a.Label ≠ "Aggressive Ladder" →
      a.TotalSavings ≤ ((104000 : ℤ) : ℚ)) := by
  refine ⟨?_, fun c _ rec hok => processCycle_total_le hok, custom_total_le⟩
  obtain ⟨rs, hrs⟩ := processCycles_all_ok 365 cs fun c hc => by
    have := hcs c hc
    omega
  have hgen : generate_comparison_data cs 365 = .ok (sortTable (rs ++ customStrategies)) :=
    generate_eq hrs
  have hkey : ∀ r ∈ rs ++ customStrategies, r.TotalSavings ≤ ((145600 : ℤ) : ℚ) ∧
      (r.TotalSavings = ((145600 : ℤ) : ℚ) → r.Label = "Aggressive Ladder") := by
    intro r hmem
    rcases List.mem_append.mp hmem with hl | hrr
    · obtain ⟨c, -, hok⟩ := processCycles_mem hrs r hl
      have hb := processCycle_total_le hok
      refine ⟨le_trans hb (Int.cast_le.mpr (by decide)), fun habs => ?_⟩
      rw [habs] at hb
      exact absurd (Int.cast_le.mp hb) (by decide)
    · simp only [customStrategies, List.mem_cons, List.not_mem_nil, or_false] at hrr
      rcases hrr with rfl | rfl | rfl | rfl | rfl | rfl | rfl | rfl | rfl | rfl | rfl | rfl <;>
        (refine ⟨Int.cast_le.mpr (by decide), fun habs => ?_⟩ ; first
          | rfl
          | exact absurd (Int.cast_injective habs) (by decide))
  have h6 : 6 < customStrategies.length := by decide
  have hA_mem : customStrategies.get ⟨6, h6⟩ ∈ rs ++ customStrategies :=
    List.mem_append_right rs (customStrategies.get_mem 6 h6)
  have hAval : (customStrategies.get ⟨6, h6⟩).TotalSavings = ((145600 : ℤ) : ℚ) := by
    show ((agg_ladder_total : ℤ) : ℚ) = ((145600 : ℤ) : ℚ)
    exact congrArg _ agg_ladder_total_eq
  have hperm : (sortTable (rs ++ customStrategies)).Perm (rs ++ customStrategies) :=
    List.perm_insertionSort byTotalDesc (rs ++ customStrategies)
  have hsorted : List.Sorted byTotalDesc (sortTable (rs ++ customStrategies)) :=
    List.sorted_insertionSort byTotalDesc (rs ++ customStrategies)
  have hA_out : customStrategies.get ⟨6, h6⟩ ∈ sortTable (rs ++ customStrategies) :=
    hperm.mem_iff.mpr hA_mem
  cases hO : sortTable (rs ++ customStrategies) with
  | nil =>
      rw [hO] at hA_out
      cases hA_out
  | cons hd tl =>
      have hd_mem : hd ∈ rs ++ customStrategies := by
        refine hperm.mem_iff.mp ?_
        rw [hO]
        exact List.mem_cons_self hd tl
      have hsorted' : List.Sorted byTotalDesc (hd :: tl) := hO ▸ hsorted
      rw [hO] at hA_out
      have hge : ((145600 : ℤ) : ℚ) ≤ hd.TotalSavings := by
        rcases List.mem_cons.mp hA_out with heq | htl
        · rw [← heq, hAval]
        · have hrel := List.rel_of_sorted_cons hsorted' _ htl
          rw [← hAval]
          exact hrel
      have hle := (hkey hd hd_mem).1
      have heq : hd.TotalSavings = ((145600 : ℤ) : ℚ) := le_antisymm hle hge
      exact ⟨hd :: tl, by rw [hgen, hO], hd, tl, rfl, (hkey hd hd_mem).2 heq, heq⟩

/-- Witness for C10 at `target_cycles = [1]`. -/
theorem aggressive_ladder_tops_witness :
    (∀ c ∈ [(1 : ℤ)], 1 ≤ c) ∧
    ((∃ out, generate_comparison_data [1] 365 = .ok out ∧
      ∃ r rest, out = r :: rest ∧ r.Label = "Aggressive Ladder" ∧
        r.TotalSavings = ((145600 : ℤ) : ℚ)) ∧
    (∀ c ∈ [(1 : ℤ)], ∀ rec, processCycle 365 c = .ok rec →
      rec.TotalSavings ≤ ((66795 : ℤ) : ℚ)) ∧
    (∀ a ∈ customStrategies, a.Label ≠ "Aggressive Ladder" →
      a.TotalSavings ≤ ((104000 : ℤ) : ℚ))) :=
  ⟨by decide, aggressive_ladder_tops [1] (by decide)⟩

